import Mathlib

/-!
# MySensors `MyMessage`: the packed message header and its payload accessors

A shallow embedding of `libraries/MySensors/MyMessage.h`.

* Bytes (`uint8_t`, `char`) are natural numbers below `256`; a store into a
  `uint8_t` field is an explicit `% 256`.
* The bit-field macros compute on C `int` operands.  All intermediate values
  are non-negative except the operand of `~`, which is represented by its
  two's complement bit pattern (`complInt`).
* The payload union is the byte buffer `data[MAX_PAYLOAD + 1]`; the numeric
  members of the union are views of its first bytes.
-/

namespace MySensors

/-! ## Constants (`MyMessage.h`, lines 17-20) -/

def PROTOCOL_VERSION : Nat := 2
def MAX_MESSAGE_LENGTH : Nat := 32
def HEADER_SIZE : Nat := 8
def MAX_PAYLOAD : Nat := MAX_MESSAGE_LENGTH - HEADER_SIZE

/-! ## Enumerations `command` and `payload` (lines 23-29 and 59-61) -/

def C_PRESENTATION : Nat := 0
def C_SET : Nat := 1
def C_REQ : Nat := 2
def C_INTERNAL : Nat := 3
def C_STREAM : Nat := 4

def P_STRING : Nat := 0
def P_BYTE : Nat := 1
def P_INT16 : Nat := 2
def P_UINT16 : Nat := 3
def P_LONG32 : Nat := 4
def P_ULONG32 : Nat := 5
def P_CUSTOM : Nat := 6

/-! ## Bit-field macros (lines 65-75) -/

/-- Width in bits of the C type `int` on the AVR targets of the library. -/
def INT_BITS : Nat := 16

/-- The C operator `~` on an `int`: the bit pattern (two's complement,
`INT_BITS` wide) of the complement of `m`. -/
def complInt (m : Nat) : Nat := (2 ^ INT_BITS - 1) ^^^ (m % 2 ^ INT_BITS)

/-- Macro `#define BIT(n) ( 1<<(n) )` -/
def BIT (n : Nat) : Nat := 1 <<< n

/-- Macro `#define BIT_MASK(len) ( BIT(len)-1 )` -/
def BIT_MASK (len : Nat) : Nat := BIT len - 1

/-- Macro `#define BF_MASK(start, len) ( BIT_MASK(len)<<(start) )` -/
def BF_MASK (start len : Nat) : Nat := BIT_MASK len <<< start

/-- Macro `#define BF_PREP(x, start, len) ( ((x)&BIT_MASK(len)) << (start) )` -/
def BF_PREP (x start len : Nat) : Nat := (x &&& BIT_MASK len) <<< start

/-- Macro `#define BF_GET(y, start, len) ( ((y)>>(start)) & BIT_MASK(len) )` -/
def BF_GET (y start len : Nat) : Nat := (y >>> start) &&& BIT_MASK len

/-- Macro `#define BF_SET(y, x, start, len)
( y= ((y) &~ BF_MASK(start, len)) | BF_PREP(x, start, len) )`;
the result is the new value of `y`, a `uint8_t` field, hence the `% 256`. -/
def BF_SET (y x start len : Nat) : Nat :=
  ((y &&& complInt (BF_MASK start len)) ||| BF_PREP x start len) % 256

/-! ## The message object (lines 141-163) -/

/-- The data members of `class MyMessage`; `data` is the `char data[MAX_PAYLOAD + 1]`
member of the payload union. -/
structure MyMessage where
  version_length : Nat
  command_ack_payload : Nat
  sender : Nat
  last : Nat
  destination : Nat
  type : Nat
  sensor : Nat
  data : List Nat
  deriving DecidableEq, Repr

/-- A message object as C can hold it: every `uint8_t` field and every byte of
`data` is below `256`, and `data` has `MAX_PAYLOAD + 1` bytes. -/
def MyMessage.WellFormed (msg : MyMessage) : Prop :=
  msg.version_length < 256 ∧ msg.command_ack_payload < 256 ∧ msg.sender < 256 ∧
  msg.last < 256 ∧ msg.destination < 256 ∧ msg.type < 256 ∧ msg.sensor < 256 ∧
  msg.data.length = MAX_PAYLOAD + 1 ∧ ∀ b ∈ msg.data, b < 256

instance (msg : MyMessage) : Decidable msg.WellFormed := by
  unfold MyMessage.WellFormed; infer_instance

/-! ## Header accessors (lines 78-98) -/

/-- Macro `#define mSetVersion(_msg,_version) BF_SET(_msg.version_length, _version, 0, 3)` -/
def mSetVersion (msg : MyMessage) (version : Nat) : MyMessage :=
  { msg with version_length := BF_SET msg.version_length version 0 3 }

/-- Macro `#define mSetLength(_msg,_length) BF_SET(_msg.version_length, _length, 3, 5)` -/
def mSetLength (msg : MyMessage) (length : Nat) : MyMessage :=
  { msg with version_length := BF_SET msg.version_length length 3 5 }

/-- Macro `#define mSetCommand(_msg,_command) BF_SET(_msg.command_ack_payload, _command, 0, 3)` -/
def mSetCommand (msg : MyMessage) (command : Nat) : MyMessage :=
  { msg with command_ack_payload := BF_SET msg.command_ack_payload command 0 3 }

/-- Macro `#define mSetAck(_msg,_command) BF_SET(_msg.command_ack_payload, _command, 3, 1)` -/
def mSetAck (msg : MyMessage) (command : Nat) : MyMessage :=
  { msg with command_ack_payload := BF_SET msg.command_ack_payload command 3 1 }

/-- Macro `#define mSetPayloadType(_msg, _pt) BF_SET(_msg.command_ack_payload, _pt, 4, 4)` -/
def mSetPayloadType (msg : MyMessage) (pt : Nat) : MyMessage :=
  { msg with command_ack_payload := BF_SET msg.command_ack_payload pt 4 4 }

/-- Macro `#define mGetVersion(_msg) BF_GET(_msg.version_length, 0, 3)` -/
def mGetVersion (msg : MyMessage) : Nat := BF_GET msg.version_length 0 3

/-- Macro `#define mGetLength(_msg) BF_GET(_msg.version_length, 3, 5)` -/
def mGetLength (msg : MyMessage) : Nat := BF_GET msg.version_length 3 5

/-- Macro `#define mGetCommand(_msg) BF_GET(_msg.command_ack_payload, 0, 3)` -/
def mGetCommand (msg : MyMessage) : Nat := BF_GET msg.command_ack_payload 0 3

/-- Macro `#define mGetAck(_msg) BF_GET(_msg.command_ack_payload, 3, 1)` -/
def mGetAck (msg : MyMessage) : Nat := BF_GET msg.command_ack_payload 3 1

/-- Macro `#define mGetPayloadType(_msg) BF_GET(_msg.command_ack_payload, 4, 4)` -/
def mGetPayloadType (msg : MyMessage) : Nat := BF_GET msg.command_ack_payload 4 4

/-- Macro `#define miGetPayloadType() BF_GET(command_ack_payload, 4, 4)` -/
def miGetPayloadType (self : MyMessage) : Nat := BF_GET self.command_ack_payload 4 4

/-- Macro `#define miGetLength() BF_GET(version_length, 3, 5)` -/
def miGetLength (self : MyMessage) : Nat := BF_GET self.version_length 3 5

/-- Macro `#define miSetLength(_length) BF_SET(version_length, _length, 3, 5)` -/
def miSetLength (self : MyMessage) (length : Nat) : MyMessage :=
  { self with version_length := BF_SET self.version_length length 3 5 }

/-- Macro `#define miSetPayloadType(_pt) BF_SET(command_ack_payload, _pt, 4, 4)` -/
def miSetPayloadType (self : MyMessage) (pt : Nat) : MyMessage :=
  { self with command_ack_payload := BF_SET self.command_ack_payload pt 4 4 }

/-! ## Payload operations

The header declares the member functions below; their bodies live in
`MyMessage.cpp`, which is not among the sources.  Each is modelled from the
specification of the message type, on top of the header's own macros
(`miSetLength`, `miSetPayloadType`, `miGetLength`, `miGetPayloadType`) and
constants. -/

/-- The C library's `strlen`: the number of bytes in the memory at `value`
before the first `0`. -/
def strlen (value : List Nat) : Nat := (value.takeWhile (· ≠ 0)).length

/-- The text a `char*` designates: the bytes of `buf` before the first `0`. -/
def cString (buf : List Nat) : List Nat := buf.takeWhile (· ≠ 0)

/-- The C library's `memcpy(dst, src, n)` (and `strncpy` when `src` holds at least
`n` characters): the first `n` bytes of `dst` are replaced by those of `src`. -/
def memcpy (dst src : List Nat) (n : Nat) : List Nat := src.take n ++ dst.drop n

/-- Modelled from the spec: the body of `MyMessage::MyMessage()` (declared at line 105)
is missing.  Spec: "all header fields zeroed, `protocol_version` set to the fixed
constant, `payload_length` = 0". -/
def MyMessage.new : MyMessage :=
  mSetVersion
    { version_length := 0, command_ack_payload := 0, sender := 0, last := 0,
      destination := 0, type := 0, sensor := 0,
      data := List.replicate (MAX_PAYLOAD + 1) 0 }
    PROTOCOL_VERSION

/-- Modelled from the spec: the body of `MyMessage::MyMessage(uint8_t sensor, uint8_t type)`
(declared at line 107) is missing.  Spec: "as default, additionally sets `sensor_id`
and `type`". -/
def MyMessage.new2 (sensor type : Nat) : MyMessage :=
  { MyMessage.new with sensor := sensor % 256, type := type % 256 }

/-- Modelled from the spec: the body of `MyMessage::setType(uint8_t)` (line 126) is
missing.  Spec: "direct field writers". -/
def setType (self : MyMessage) (type : Nat) : MyMessage :=
  { self with type := type % 256 }

/-- Modelled from the spec: the body of `MyMessage::setSensor(uint8_t)` (line 127) is
missing.  Spec: "direct field writers". -/
def setSensor (self : MyMessage) (sensor : Nat) : MyMessage :=
  { self with sensor := sensor % 256 }

/-- Modelled from the spec: the body of `MyMessage::setDestination(uint8_t)` (line
128) is missing.  Spec: "direct field writers". -/
def setDestination (self : MyMessage) (destination : Nat) : MyMessage :=
  { self with destination := destination % 256 }

/-- Modelled from the spec: the body of `MyMessage::set(void* payload, uint8_t length)`
(line 131) is missing.  Spec: "copies up to `length` bytes (capped at 24) into the
payload, sets `payload_type = custom-bytes`, sets `payload_length = length`". -/
def set_custom (self : MyMessage) (payload : List Nat) (length : Nat) : MyMessage :=
  let m := miSetPayloadType self P_CUSTOM
  let m := miSetLength m length
  { m with data := memcpy m.data payload (min length MAX_PAYLOAD) }

/-- Modelled from the spec: the body of `MyMessage::set(const char* value)` (line 132)
is missing.  Spec: "copies the string content (excluding terminator) into the
payload, caps length at 24, sets `payload_type = string`, `payload_length` = copied
length (terminator appended in memory but excluded from the length count)". -/
def set_string (self : MyMessage) (value : List Nat) : MyMessage :=
  let length := min (strlen value) MAX_PAYLOAD
  let m := miSetLength self length
  let m := miSetPayloadType m P_STRING
  { m with data := (memcpy m.data value length).set length 0 }

/-- Modelled from the spec: the body of `MyMessage::set(uint8_t value)` (line 133) is
missing.  Spec: "1-byte integer; `payload_type = byte`, `payload_length = 1`"; the
union member `bValue` is the first byte of `data`. -/
def set_byte (self : MyMessage) (value : Nat) : MyMessage :=
  let m := miSetPayloadType self P_BYTE
  let m := miSetLength m 1
  { m with data := memcpy m.data [value % 256] 1 }

/-- The in-memory representation of a 32-bit two's complement `long`, least
significant byte first (the byte order of the AVR targets). -/
def longToBytes (value : Int) : List Nat :=
  let u : Nat := (value % 2 ^ 32).toNat
  [u % 256, u / 2 ^ 8 % 256, u / 2 ^ 16 % 256, u / 2 ^ 24 % 256]

/-- The `long` whose in-memory representation is the first four bytes of `bs`. -/
def bytesToLong (bs : List Nat) : Int :=
  let u : Nat := bs.getD 0 0 + 2 ^ 8 * bs.getD 1 0 + 2 ^ 16 * bs.getD 2 0 + 2 ^ 24 * bs.getD 3 0
  if u < 2 ^ 31 then (u : Int) else (u : Int) - 2 ^ 32

/-- Modelled from the spec: the body of `MyMessage::set(long value)` (line 136) is
missing.  Spec: "4-byte integers (native endianness of the encoding, i.e. the
in-memory representation is copied verbatim ...); `payload_length = 4`", with the
tag `long32` of the payload-type catalogue; the union member `lValue` is the first
four bytes of `data`. -/
def set_long (self : MyMessage) (value : Int) : MyMessage :=
  let m := miSetPayloadType self P_LONG32
  let m := miSetLength m 4
  { m with data := memcpy m.data (longToBytes value) 4 }

/-- Modelled from the spec: the body of `MyMessage::getByte()` (line 117) is missing.
Spec: "reinterpret the raw payload bytes as the requested numeric type regardless
of the stored `payload_type` tag". -/
def getByte (self : MyMessage) : Nat := self.data.getD 0 0

/-- Modelled from the spec: the body of `MyMessage::getLong()` (line 120) is missing.
Spec: "reinterpret the raw payload bytes as the requested numeric type regardless
of the stored `payload_type` tag". -/
def getLong (self : MyMessage) : Int := bytesToLong self.data

/-- Modelled from the spec: the body of `MyMessage::getString()` (line 115) is
missing.  Spec: "returns the payload interpreted as a C-style text pointer".  The
value is the text found at the returned pointer. -/
def getString (self : MyMessage) : List Nat := cString self.data

/-- Modelled from the spec: the body of `MyMessage::getCustom()` (line 116) is
missing.  Spec: "returns an opaque reference to the raw payload bytes".  The value
is the buffer the returned pointer designates. -/
def getCustom (self : MyMessage) : List Nat := self.data

/-- Character codes of the sixteen hexadecimal digits, letters in lower case. -/
def hexDigits : List Nat := "0123456789abcdef".toList.map Char.toNat

/-- The digit character of a value `0..15`. -/
def hexDigit (n : Nat) : Nat := hexDigits.getD (n % 16) 0

/-- Modelled from the spec: the body of `MyMessage::getString(char *buffer)` (line
114) is missing.  Spec: "if `payload_type == string`, copies the text (plus
terminator) into the caller-provided buffer and returns it; otherwise renders the
raw payload bytes as a two-characters-per-byte hexadecimal string into the same
buffer", "a hexadecimal string of length `2 * payload_length`", "payload bytes
`[0x0A, 0xFF]` → `"0aff"`".  The value is the sequence of bytes written to `buffer`,
terminator included. -/
def getString_buffer (self : MyMessage) : List Nat :=
  if miGetPayloadType self = P_STRING then
    cString self.data ++ [0]
  else
    (List.range (miGetLength self)).flatMap
        (fun i => [hexDigit (self.data.getD i 0 / 16), hexDigit (self.data.getD i 0 % 16)])
      ++ [0]

/-! ## Object layout (lines 141-163) -/

/-- Widths in bits of the header fields declared before the payload, in declaration
order, as the member comments of lines 141-150 give them: version 3, length 5
(`version_length`), command 3, ack 1, payload type 4 (`command_ack_payload`), then
`sender`, `last`, `destination`, `type` and `sensor` with 8 bits each. -/
def headerFieldBits : List Nat := [3, 5, 3, 1, 4, 8, 8, 8, 8, 8]

/-- The header members of the class in declaration order, one byte per `uint8_t`
member. -/
def headerBytes (msg : MyMessage) : List Nat :=
  [msg.version_length, msg.command_ack_payload, msg.sender, msg.last, msg.destination,
   msg.type, msg.sensor]

/-- The bytes of a `MyMessage` object: the class and its payload union are
`__attribute__((packed))`, so the header members are followed by the union (whose
largest member is `data`) without padding. -/
def objectBytes (msg : MyMessage) : List Nat := headerBytes msg ++ msg.data

/-! ## Sample data -/

/-- A message used to instantiate the statements below. -/
def sampleMsg : MyMessage :=
  { version_length := 0xAA, command_ack_payload := 0x5C, sender := 7, last := 9,
    destination := 3, type := 16, sensor := 1,
    data := [0x0A, 0xFF, 104, 105, 0, 1, 2, 3, 4, 5, 6, 7, 8, 9, 10, 11, 12, 13, 14, 15,
             16, 17, 18, 19, 20] }

/-! ## Arithmetic reading of the bit-field macros -/

theorem BIT_MASK_eq (len : Nat) : BIT_MASK len = 2 ^ len - 1 := by
  simp [BIT_MASK, BIT, Nat.one_shiftLeft]

theorem BF_GET_eq (y start len : Nat) : BF_GET y start len = y / 2 ^ start % 2 ^ len := by
  simp [BF_GET, BIT_MASK_eq, Nat.shiftRight_eq_div_pow]

theorem BF_SET_lt (y x start len : Nat) : BF_SET y x start len < 256 := by
  unfold BF_SET; omega

theorem and_BIT_MASK (x len : Nat) : x &&& BIT_MASK len = x % 2 ^ len := by
  rw [BIT_MASK_eq, Nat.and_pow_two_sub_one_eq_mod]

theorem BF_PREP_eq (x start len : Nat) : BF_PREP x start len = x % 2 ^ len * 2 ^ start := by
  rw [BF_PREP, and_BIT_MASK, Nat.shiftLeft_eq]

set_option maxRecDepth 100000 in
/-- Writing the field at bits 0..2 of a byte. -/
theorem BF_SET_0_3 (y x : Nat) (hy : y < 256) :
    BF_SET y x 0 3 = y / 8 * 8 + x % 8 := by
  have key : ∀ y, y < 256 → ∀ r, r < 8 →
      ((y &&& complInt (BF_MASK 0 3)) ||| r * 2 ^ 0) % 256 = y / 8 * 8 + r := by
    decide
  rw [BF_SET, BF_PREP_eq]
  exact key y hy (x % 2 ^ 3) (Nat.mod_lt _ (by decide))

set_option maxRecDepth 100000 in
/-- Writing the field at bits 3..7 of a byte. -/
theorem BF_SET_3_5 (y x : Nat) (hy : y < 256) :
    BF_SET y x 3 5 = y % 8 + x % 32 * 8 := by
  have key : ∀ y, y < 256 → ∀ r, r < 32 →
      ((y &&& complInt (BF_MASK 3 5)) ||| r * 2 ^ 3) % 256 = y % 8 + r * 8 := by
    decide
  rw [BF_SET, BF_PREP_eq]
  exact key y hy (x % 2 ^ 5) (Nat.mod_lt _ (by decide))

set_option maxRecDepth 100000 in
/-- Writing the field at bit 3 of a byte. -/
theorem BF_SET_3_1 (y x : Nat) (hy : y < 256) :
    BF_SET y x 3 1 = y % 8 + x % 2 * 8 + y / 16 * 16 := by
  have key : ∀ y, y < 256 → ∀ r, r < 2 →
      ((y &&& complInt (BF_MASK 3 1)) ||| r * 2 ^ 3) % 256 = y % 8 + r * 8 + y / 16 * 16 := by
    decide
  rw [BF_SET, BF_PREP_eq]
  exact key y hy (x % 2 ^ 1) (Nat.mod_lt _ (by decide))

set_option maxRecDepth 100000 in
/-- Writing the field at bits 4..7 of a byte. -/
theorem BF_SET_4_4 (y x : Nat) (hy : y < 256) :
    BF_SET y x 4 4 = y % 16 + x % 16 * 16 := by
  have key : ∀ y, y < 256 → ∀ r, r < 16 →
      ((y &&& complInt (BF_MASK 4 4)) ||| r * 2 ^ 4) % 256 = y % 16 + r * 16 := by
    decide
  rw [BF_SET, BF_PREP_eq]
  exact key y hy (x % 2 ^ 4) (Nat.mod_lt _ (by decide))

/-! ## The header accessors as byte arithmetic -/

theorem mSetVersion_byte (msg : MyMessage) (x : Nat) (h : msg.version_length < 256) :
    (mSetVersion msg x).version_length = msg.version_length / 8 * 8 + x % 8 :=
  BF_SET_0_3 _ _ h

theorem mSetLength_byte (msg : MyMessage) (x : Nat) (h : msg.version_length < 256) :
    (mSetLength msg x).version_length = msg.version_length % 8 + x % 32 * 8 :=
  BF_SET_3_5 _ _ h

theorem mSetVersion_lt (msg : MyMessage) (x : Nat) :
    (mSetVersion msg x).version_length < 256 := BF_SET_lt _ _ _ _

theorem mSetLength_lt (msg : MyMessage) (x : Nat) :
    (mSetLength msg x).version_length < 256 := BF_SET_lt _ _ _ _

theorem mSetCommand_byte (msg : MyMessage) (x : Nat) (h : msg.command_ack_payload < 256) :
    (mSetCommand msg x).command_ack_payload = msg.command_ack_payload / 8 * 8 + x % 8 :=
  BF_SET_0_3 _ _ h

theorem mSetAck_byte (msg : MyMessage) (x : Nat) (h : msg.command_ack_payload < 256) :
    (mSetAck msg x).command_ack_payload =
      msg.command_ack_payload % 8 + x % 2 * 8 + msg.command_ack_payload / 16 * 16 :=
  BF_SET_3_1 _ _ h

theorem mSetPayloadType_byte (msg : MyMessage) (x : Nat)
    (h : msg.command_ack_payload < 256) :
    (mSetPayloadType msg x).command_ack_payload =
      msg.command_ack_payload % 16 + x % 16 * 16 :=
  BF_SET_4_4 _ _ h

theorem mSetCommand_lt (msg : MyMessage) (x : Nat) :
    (mSetCommand msg x).command_ack_payload < 256 := BF_SET_lt _ _ _ _

theorem mSetAck_lt (msg : MyMessage) (x : Nat) :
    (mSetAck msg x).command_ack_payload < 256 := BF_SET_lt _ _ _ _

theorem mSetPayloadType_lt (msg : MyMessage) (x : Nat) :
    (mSetPayloadType msg x).command_ack_payload < 256 := BF_SET_lt _ _ _ _

theorem mGetVersion_eq (msg : MyMessage) : mGetVersion msg = msg.version_length % 8 := by
  simp [mGetVersion, BF_GET_eq]

theorem mGetLength_eq (msg : MyMessage) : mGetLength msg = msg.version_length / 8 % 32 := by
  simp [mGetLength, BF_GET_eq]

theorem mGetCommand_eq (msg : MyMessage) :
    mGetCommand msg = msg.command_ack_payload % 8 := by
  simp [mGetCommand, BF_GET_eq]

theorem mGetAck_eq (msg : MyMessage) : mGetAck msg = msg.command_ack_payload / 8 % 2 := by
  simp [mGetAck, BF_GET_eq]

theorem mGetPayloadType_eq (msg : MyMessage) :
    mGetPayloadType msg = msg.command_ack_payload / 16 % 16 := by
  simp [mGetPayloadType, BF_GET_eq]

/-! ## Byte 0: version and payload length -/

/-- Claim C1: for every starting value of `version_length` in 0..255, `mGetVersion`
after `mSetVersion(msg, v)` returns `v` for every `v` in 0..7, and `mGetLength` after
`mSetLength(msg, l)` returns `l` for every `l` in 0..31. -/
theorem version_length_round_trip (msg : MyMessage) (h : msg.version_length < 256) :
    (∀ v, v < 8 → mGetVersion (mSetVersion msg v) = v) ∧
    (∀ l, l < 32 → mGetLength (mSetLength msg l) = l) := by
  refine ⟨fun v hv => ?_, fun l hl => ?_⟩
  · rw [mGetVersion_eq, mSetVersion_byte msg v h]
    omega
  · rw [mGetLength_eq, mSetLength_byte msg l h]
    omega

theorem version_length_round_trip_witness :
    mGetVersion (mSetVersion sampleMsg 5) = 5 ∧ mGetLength (mSetLength sampleMsg 24) = 24 :=
  ⟨(version_length_round_trip sampleMsg (by decide)).1 5 (by decide),
   (version_length_round_trip sampleMsg (by decide)).2 24 (by decide)⟩

/-- Claim C2: for every starting value of `version_length` and every value `x`,
`mSetVersion(msg, x)` leaves `mGetLength(msg)` unchanged and `mSetLength(msg, x)` leaves
`mGetVersion(msg)` unchanged; hence for all 8x32 pairs `(v, l)`, setting both in either
order makes `mGetVersion` return `v` and `mGetLength` return `l`. -/
theorem version_length_independent (msg : MyMessage) (h : msg.version_length < 256) :
    (∀ x, mGetLength (mSetVersion msg x) = mGetLength msg) ∧
    (∀ x, mGetVersion (mSetLength msg x) = mGetVersion msg) ∧
    (∀ v l, v < 8 → l < 32 →
      mGetVersion (mSetLength (mSetVersion msg v) l) = v ∧
      mGetLength (mSetLength (mSetVersion msg v) l) = l ∧
      mGetVersion (mSetVersion (mSetLength msg l) v) = v ∧
      mGetLength (mSetVersion (mSetLength msg l) v) = l) := by
  refine ⟨fun x => ?_, fun x => ?_, fun v l hv hl => ?_⟩
  · rw [mGetLength_eq, mGetLength_eq, mSetVersion_byte msg x h]
    omega
  · rw [mGetVersion_eq, mGetVersion_eq, mSetLength_byte msg x h]
    omega
  · have a := mSetVersion_byte msg v h
    have b := mSetLength_byte (mSetVersion msg v) l (mSetVersion_lt msg v)
    have c := mSetLength_byte msg l h
    have d := mSetVersion_byte (mSetLength msg l) v (mSetLength_lt msg l)
    simp only [mGetVersion_eq, mGetLength_eq]
    omega

theorem version_length_independent_witness :
    mGetLength (mSetVersion sampleMsg 300) = mGetLength sampleMsg ∧
    mGetVersion (mSetLength sampleMsg 300) = mGetVersion sampleMsg ∧
    mGetVersion (mSetLength (mSetVersion sampleMsg 7) 31) = 7 ∧
    mGetLength (mSetLength (mSetVersion sampleMsg 7) 31) = 31 ∧
    mGetVersion (mSetVersion (mSetLength sampleMsg 31) 7) = 7 ∧
    mGetLength (mSetVersion (mSetLength sampleMsg 31) 7) = 31 :=
  ⟨(version_length_independent sampleMsg (by decide)).1 300,
   (version_length_independent sampleMsg (by decide)).2.1 300,
   (version_length_independent sampleMsg (by decide)).2.2 7 31 (by decide) (by decide)⟩

/-- Claim C3: for every starting value of `version_length`, every `v` in 0..7 and every
`l` in 0..31, after `mSetVersion(msg, v)` and `mSetLength(msg, l)` in either order the
byte `version_length` equals `v + 8*l`: the version occupies bits 0..2 and the payload
length bits 3..7. -/
theorem version_length_layout (msg : MyMessage) (v l : Nat)
    (h : msg.version_length < 256) (hv : v < 8) (hl : l < 32) :
    (mSetLength (mSetVersion msg v) l).version_length = v + 8 * l ∧
    (mSetVersion (mSetLength msg l) v).version_length = v + 8 * l := by
  have a := mSetVersion_byte msg v h
  have b := mSetLength_byte (mSetVersion msg v) l (mSetVersion_lt msg v)
  have c := mSetLength_byte msg l h
  have d := mSetVersion_byte (mSetLength msg l) v (mSetLength_lt msg l)
  omega

theorem version_length_layout_witness :
    (mSetLength (mSetVersion sampleMsg 2) 24).version_length = 2 + 8 * 24 ∧
    (mSetVersion (mSetLength sampleMsg 24) 2).version_length = 2 + 8 * 24 :=
  version_length_layout sampleMsg 2 24 (by decide) (by decide) (by decide)

/-! ## Byte 1: command, ack flag and payload type -/

/-- Claim C4: for every starting value of `command_ack_payload`, every `c` in 0..7, `a`
in 0..1 and `p` in 0..15, after `mSetCommand(msg, c)`, `mSetAck(msg, a)` and
`mSetPayloadType(msg, p)` in any order the byte equals `c + 8*a + 16*p` and
`mGetCommand`, `mGetAck`, `mGetPayloadType` return `c`, `a`, `p`; in particular every
command `C_PRESENTATION..C_STREAM` and every payload type `P_STRING..P_CUSTOM` is
stored and read back unchanged. -/
theorem command_ack_payload_layout (msg : MyMessage) (c a p : Nat)
    (h : msg.command_ack_payload < 256) (hc : c < 8) (ha : a < 2) (hp : p < 16) :
    (∀ m ∈ [mSetPayloadType (mSetAck (mSetCommand msg c) a) p,
            mSetAck (mSetPayloadType (mSetCommand msg c) p) a,
            mSetPayloadType (mSetCommand (mSetAck msg a) c) p,
            mSetCommand (mSetPayloadType (mSetAck msg a) p) c,
            mSetAck (mSetCommand (mSetPayloadType msg p) c) a,
            mSetCommand (mSetAck (mSetPayloadType msg p) a) c],
      m.command_ack_payload = c + 8 * a + 16 * p ∧
      mGetCommand m = c ∧ mGetAck m = a ∧ mGetPayloadType m = p) ∧
    (∀ k ∈ [C_PRESENTATION, C_SET, C_REQ, C_INTERNAL, C_STREAM],
      mGetCommand (mSetCommand msg k) = k) ∧
    (∀ t ∈ [P_STRING, P_BYTE, P_INT16, P_UINT16, P_LONG32, P_ULONG32, P_CUSTOM],
      mGetPayloadType (mSetPayloadType msg t) = t) := by
  refine ⟨fun m hm => ?_, fun k hk => ?_, fun t ht => ?_⟩
  · simp only [List.mem_cons, List.mem_singleton, List.not_mem_nil, or_false] at hm
    simp only [mGetCommand_eq, mGetAck_eq, mGetPayloadType_eq]
    rcases hm with rfl | rfl | rfl | rfl | rfl | rfl
    · rw [mSetPayloadType_byte _ p (mSetAck_lt _ _), mSetAck_byte _ a (mSetCommand_lt _ _),
        mSetCommand_byte msg c h]
      omega
    · rw [mSetAck_byte _ a (mSetPayloadType_lt _ _), mSetPayloadType_byte _ p (mSetCommand_lt _ _),
        mSetCommand_byte msg c h]
      omega
    · rw [mSetPayloadType_byte _ p (mSetCommand_lt _ _), mSetCommand_byte _ c (mSetAck_lt _ _),
        mSetAck_byte msg a h]
      omega
    · rw [mSetCommand_byte _ c (mSetPayloadType_lt _ _), mSetPayloadType_byte _ p (mSetAck_lt _ _),
        mSetAck_byte msg a h]
      omega
    · rw [mSetAck_byte _ a (mSetCommand_lt _ _), mSetCommand_byte _ c (mSetPayloadType_lt _ _),
        mSetPayloadType_byte msg p h]
      omega
    · rw [mSetCommand_byte _ c (mSetAck_lt _ _), mSetAck_byte _ a (mSetPayloadType_lt _ _),
        mSetPayloadType_byte msg p h]
      omega
  · have hk8 : k < 8 := by
      simp only [List.mem_cons, List.mem_singleton, List.not_mem_nil, or_false] at hk
      rcases hk with rfl | rfl | rfl | rfl | rfl <;> decide
    rw [mGetCommand_eq, mSetCommand_byte msg k h]
    omega
  · have ht16 : t < 16 := by
      simp only [List.mem_cons, List.mem_singleton, List.not_mem_nil, or_false] at ht
      rcases ht with rfl | rfl | rfl | rfl | rfl | rfl | rfl <;> decide
    rw [mGetPayloadType_eq, mSetPayloadType_byte msg t h]
    omega

theorem command_ack_payload_layout_witness :
    (mSetCommand (mSetPayloadType (mSetAck sampleMsg 1) 6) 4).command_ack_payload
        = 4 + 8 * 1 + 16 * 6 ∧
    mGetCommand (mSetCommand (mSetPayloadType (mSetAck sampleMsg 1) 6) 4) = 4 ∧
    mGetAck (mSetCommand (mSetPayloadType (mSetAck sampleMsg 1) 6) 4) = 1 ∧
    mGetPayloadType (mSetCommand (mSetPayloadType (mSetAck sampleMsg 1) 6) 4) = 6 :=
  (command_ack_payload_layout sampleMsg 4 1 6 (by decide) (by decide) (by decide)
    (by decide)).1 _ (by simp)

/-! ## Header effect of the payload setters -/

theorem mGetLength_mSetLength (msg : MyMessage) (x : Nat) (h : msg.version_length < 256) :
    mGetLength (mSetLength msg x) = x % 32 := by
  rw [mGetLength_eq, mSetLength_byte msg x h]
  omega

theorem mGetPayloadType_mSetPayloadType (msg : MyMessage) (x : Nat)
    (h : msg.command_ack_payload < 256) :
    mGetPayloadType (mSetPayloadType msg x) = x % 16 := by
  rw [mGetPayloadType_eq, mSetPayloadType_byte msg x h]
  omega

theorem mGetLength_set_custom (msg : MyMessage) (payload : List Nat) (length : Nat)
    (h : msg.version_length < 256) :
    mGetLength (set_custom msg payload length) = length % 32 :=
  mGetLength_mSetLength (miSetPayloadType msg P_CUSTOM) length h

theorem mGetPayloadType_set_custom (msg : MyMessage) (payload : List Nat) (length : Nat)
    (h : msg.command_ack_payload < 256) :
    mGetPayloadType (set_custom msg payload length) = P_CUSTOM :=
  mGetPayloadType_mSetPayloadType msg P_CUSTOM h

theorem mGetLength_set_string (msg : MyMessage) (value : List Nat)
    (h : msg.version_length < 256) :
    mGetLength (set_string msg value) = min (strlen value) MAX_PAYLOAD := by
  have e : mGetLength (set_string msg value) = min (strlen value) MAX_PAYLOAD % 32 :=
    mGetLength_mSetLength msg _ h
  have m : MAX_PAYLOAD = 24 := rfl
  rw [e, m]
  omega

theorem mGetPayloadType_set_string (msg : MyMessage) (value : List Nat)
    (h : msg.command_ack_payload < 256) :
    mGetPayloadType (set_string msg value) = P_STRING :=
  mGetPayloadType_mSetPayloadType (miSetLength msg _) P_STRING h

theorem mGetLength_set_long (msg : MyMessage) (value : Int)
    (h : msg.version_length < 256) :
    mGetLength (set_long msg value) = 4 :=
  mGetLength_mSetLength (miSetPayloadType msg P_LONG32) 4 h

theorem mGetPayloadType_set_long (msg : MyMessage) (value : Int)
    (h : msg.command_ack_payload < 256) :
    mGetPayloadType (set_long msg value) = P_LONG32 :=
  mGetPayloadType_mSetPayloadType msg P_LONG32 h

/-! ## Capacity of the length field -/

/-- Claim C5, refuted as stated: `mSetLength(msg, 31)` and `miSetLength(31)` leave the
payload length 31, above `MAX_PAYLOAD` = 24. -/
theorem length_above_capacity :
    ¬ (mGetLength (mSetLength sampleMsg 31) ≤ MAX_PAYLOAD) ∧
    ¬ (miGetLength (miSetLength sampleMsg 31) ≤ MAX_PAYLOAD) := by
  decide

/-- Claim C5, amended: `mSetLength` / `miSetLength` store their argument modulo 32 (so
the length is at most 31, and at most `MAX_PAYLOAD` whenever the argument is);
`set(rawBytes, length)` with `length <= 24` leaves `payload_length = length`; and
`set(text)` leaves `payload_length <= MAX_PAYLOAD` for a string of any length. -/
theorem length_capacity (msg : MyMessage) (h : msg.version_length < 256) :
    (∀ x, mGetLength (mSetLength msg x) = x % 32 ∧
          miGetLength (miSetLength msg x) = x % 32 ∧
          (x ≤ MAX_PAYLOAD → mGetLength (mSetLength msg x) ≤ MAX_PAYLOAD ∧
                              miGetLength (miSetLength msg x) ≤ MAX_PAYLOAD)) ∧
    (∀ payload length, length ≤ MAX_PAYLOAD →
          mGetLength (set_custom msg payload length) = length) ∧
    (∀ value, mGetLength (set_string msg value) ≤ MAX_PAYLOAD) := by
  have m : MAX_PAYLOAD = 24 := rfl
  refine ⟨fun x => ?_, fun payload length hl => ?_, fun value => ?_⟩
  · have e1 := mGetLength_mSetLength msg x h
    have e2 : miGetLength (miSetLength msg x) = x % 32 := e1
    refine ⟨e1, e2, fun hx => ?_⟩
    rw [e1, e2, m] at *
    omega
  · rw [mGetLength_set_custom msg payload length h]
    rw [m] at hl
    omega
  · rw [mGetLength_set_string msg value h]
    exact Nat.min_le_right _ _

theorem length_capacity_witness :
    mGetLength (mSetLength sampleMsg 24) ≤ MAX_PAYLOAD ∧
    mGetLength (set_custom sampleMsg [1, 2, 3] 3) = 3 ∧
    mGetLength (set_string sampleMsg (List.replicate 40 65 ++ [0])) ≤ MAX_PAYLOAD :=
  ⟨(((length_capacity sampleMsg (by decide)).1 24).2.2 (by decide)).1,
   (length_capacity sampleMsg (by decide)).2.1 [1, 2, 3] 3 (by decide),
   (length_capacity sampleMsg (by decide)).2.2 _⟩

/-- Under the modelled `set(void*, uint8_t)` a length argument above the capacity is
stored as given: here 30 bytes are announced while 24 are copied. -/
theorem set_custom_length_uncapped :
    mGetLength (set_custom sampleMsg (List.replicate 30 1) 30) = 30 := by
  decide

/-! ## Typed payload round trips -/

theorem bytesToLong_longToBytes (v : Int) (rest : List Nat)
    (hlo : -2 ^ 31 ≤ v) (hhi : v < 2 ^ 31) :
    bytesToLong (longToBytes v ++ rest) = v := by
  simp only [bytesToLong, longToBytes, List.cons_append, List.nil_append, List.getD_cons_zero,
    List.getD_cons_succ]
  generalize hu : (v % 2 ^ 32).toNat = u
  have hu32 : u < 2 ^ 32 := by omega
  have hcast : (u : Int) = v % 2 ^ 32 := by omega
  have hsum : u % 256 + 2 ^ 8 * (u / 2 ^ 8 % 256) + 2 ^ 16 * (u / 2 ^ 16 % 256)
      + 2 ^ 24 * (u / 2 ^ 24 % 256) = u := by omega
  rw [hsum]
  split <;> omega

/-- Claim C6: for every 32-bit signed integer `v`, `getLong()` after `set((long)v)`
returns `v`, and `set((long)v)` leaves `payload_type = P_LONG32` and
`payload_length = 4`. -/
theorem long_round_trip (msg : MyMessage) (v : Int) (hwf : msg.WellFormed)
    (hlo : -2 ^ 31 ≤ v) (hhi : v < 2 ^ 31) :
    getLong (set_long msg v) = v ∧
    mGetPayloadType (set_long msg v) = P_LONG32 ∧
    mGetLength (set_long msg v) = 4 := by
  refine ⟨?_, mGetPayloadType_set_long msg v hwf.2.1, mGetLength_set_long msg v hwf.1⟩
  have hd : (set_long msg v).data = longToBytes v ++ msg.data.drop 4 := by
    simp [set_long, memcpy, miSetLength, miSetPayloadType, longToBytes]
  rw [getLong, hd]
  exact bytesToLong_longToBytes v _ hlo hhi

theorem long_round_trip_witness :
    getLong (set_long sampleMsg (-123456789)) = -123456789 ∧
    mGetPayloadType (set_long sampleMsg (-123456789)) = P_LONG32 ∧
    mGetLength (set_long sampleMsg (-123456789)) = 4 :=
  long_round_trip sampleMsg (-123456789) (by decide) (by decide) (by decide)

theorem takeWhile_before_zero (s rest : List Nat) (hs : ∀ c ∈ s, c ≠ 0) :
    (s ++ 0 :: rest).takeWhile (· ≠ 0) = s := by
  induction s with
  | nil => simp
  | cons c t ih =>
    have hc : c ≠ 0 := hs c (List.mem_cons_self _ _)
    have ht : ∀ d ∈ t, d ≠ 0 := fun d hd => hs d (List.mem_cons_of_mem _ hd)
    rw [List.cons_append, List.takeWhile_cons_of_pos (by simpa using hc), ih ht]

theorem strlen_before_zero (s rest : List Nat) (hs : ∀ c ∈ s, c ≠ 0) :
    strlen (s ++ 0 :: rest) = s.length := by
  rw [strlen, takeWhile_before_zero s rest hs]

theorem data_set_string (msg : MyMessage) (value : List Nat) :
    (set_string msg value).data =
      (memcpy msg.data value (min (strlen value) MAX_PAYLOAD)).set
        (min (strlen value) MAX_PAYLOAD) 0 := rfl

theorem data_set_custom (msg : MyMessage) (payload : List Nat) (length : Nat) :
    (set_custom msg payload length).data =
      memcpy msg.data payload (min length MAX_PAYLOAD) := rfl

/-- Overwriting the byte right behind a copied prefix. -/
theorem set_after_prefix (pre old : List Nat) (n : Nat) (hp : pre.length = n)
    (ho : n < old.length) :
    (pre ++ old.drop n).set n 0 = pre ++ 0 :: old.drop (n + 1) := by
  subst hp
  rw [List.set_append_right _ _ (Nat.le_refl _), Nat.sub_self, List.drop_eq_getElem_cons ho,
    List.set_cons_zero]

/-- The buffer after `set(const char*)` with a text `s` of at most 24 characters:
the characters, the terminator, and the old bytes behind it. -/
theorem data_set_string_short (msg : MyMessage) (s rest : List Nat)
    (hd : msg.data.length = MAX_PAYLOAD + 1) (hs : ∀ c ∈ s, c ≠ 0)
    (hlen : s.length ≤ MAX_PAYLOAD) :
    (set_string msg (s ++ 0 :: rest)).data = s ++ 0 :: msg.data.drop (s.length + 1) := by
  have m : MAX_PAYLOAD = 24 := rfl
  rw [m] at hd hlen
  rw [data_set_string, strlen_before_zero s rest hs, m, Nat.min_eq_left hlen, memcpy,
    List.take_left]
  exact set_after_prefix s msg.data s.length rfl (by omega)

/-- The buffer after `set(const char*)` with a text `s` of more than 24 characters:
its first 24 characters and the terminator. -/
theorem data_set_string_long (msg : MyMessage) (s rest : List Nat)
    (hd : msg.data.length = MAX_PAYLOAD + 1) (hs : ∀ c ∈ s, c ≠ 0)
    (hlen : MAX_PAYLOAD < s.length) :
    (set_string msg (s ++ 0 :: rest)).data = s.take MAX_PAYLOAD ++ [0] := by
  have m : MAX_PAYLOAD = 24 := rfl
  rw [m] at hd hlen
  have ht : (s ++ 0 :: rest).take 24 = s.take 24 := by
    rw [List.take_append_of_le_length (Nat.le_of_lt hlen)]
  have hl : (s.take 24).length = 24 := by
    rw [List.length_take]; omega
  rw [data_set_string, strlen_before_zero s rest hs, m, Nat.min_eq_right (Nat.le_of_lt hlen),
    memcpy, ht, set_after_prefix (s.take 24) msg.data 24 hl (by omega),
    List.drop_eq_nil_of_le (by omega)]

/-- Claim C7: for every string `s` of length at most 24 without an embedded
terminator, after `set(s)` the text returned by `getString()` equals `s`,
`payload_type` is `P_STRING` and `payload_length` is the length of `s`, the
terminator not counted. -/
theorem string_round_trip (msg : MyMessage) (s rest : List Nat) (hwf : msg.WellFormed)
    (hs : ∀ c ∈ s, c ≠ 0) (hlen : s.length ≤ 24) :
    getString (set_string msg (s ++ 0 :: rest)) = s ∧
    mGetPayloadType (set_string msg (s ++ 0 :: rest)) = P_STRING ∧
    mGetLength (set_string msg (s ++ 0 :: rest)) = s.length := by
  refine ⟨?_, mGetPayloadType_set_string msg _ hwf.2.1, ?_⟩
  · rw [getString, data_set_string_short msg s rest hwf.2.2.2.2.2.2.2.1 hs hlen, cString,
      takeWhile_before_zero s _ hs]
  · rw [mGetLength_set_string msg _ hwf.1, strlen_before_zero s rest hs]
    exact Nat.min_eq_left hlen

theorem string_round_trip_witness :
    getString (set_string sampleMsg ([104, 101, 108, 108, 111] ++ 0 :: [7, 7])) =
      [104, 101, 108, 108, 111] ∧
    mGetPayloadType (set_string sampleMsg ([104, 101, 108, 108, 111] ++ 0 :: [7, 7])) =
      P_STRING ∧
    mGetLength (set_string sampleMsg ([104, 101, 108, 108, 111] ++ 0 :: [7, 7])) =
      [104, 101, 108, 108, 111].length :=
  string_round_trip sampleMsg [104, 101, 108, 108, 111] [7, 7] (by decide) (by decide)
    (by decide)

/-- Claim C8: for every string `s` longer than 24 bytes, after `set(s)` the stored
payload is exactly the first 24 bytes of `s`, `payload_length == 24`, and the byte
after them in the buffer (index 24 of `data`) is the terminator 0. -/
theorem string_truncation (msg : MyMessage) (s rest : List Nat) (hwf : msg.WellFormed)
    (hs : ∀ c ∈ s, c ≠ 0) (hlen : 24 < s.length) :
    (set_string msg (s ++ 0 :: rest)).data.take
        (mGetLength (set_string msg (s ++ 0 :: rest))) = s.take 24 ∧
    mGetLength (set_string msg (s ++ 0 :: rest)) = 24 ∧
    (set_string msg (s ++ 0 :: rest)).data[24]? = some 0 := by
  have hl : mGetLength (set_string msg (s ++ 0 :: rest)) = 24 := by
    rw [mGetLength_set_string msg _ hwf.1, strlen_before_zero s rest hs]
    exact Nat.min_eq_right (Nat.le_of_lt hlen)
  have hd := data_set_string_long msg s rest hwf.2.2.2.2.2.2.2.1 hs hlen
  have m : MAX_PAYLOAD = 24 := rfl
  rw [m] at hd
  have h24 : (s.take 24).length = 24 := by
    rw [List.length_take]; omega
  refine ⟨?_, hl, ?_⟩
  · rw [hl, hd, List.take_left' h24]
  · rw [hd, List.getElem?_append_right (Nat.le_of_eq h24), h24]
    rfl

theorem string_truncation_witness :
    (set_string sampleMsg (List.replicate 30 65 ++ 0 :: [])).data.take
        (mGetLength (set_string sampleMsg (List.replicate 30 65 ++ 0 :: []))) =
      (List.replicate 30 65).take 24 ∧
    mGetLength (set_string sampleMsg (List.replicate 30 65 ++ 0 :: [])) = 24 ∧
    (set_string sampleMsg (List.replicate 30 65 ++ 0 :: [])).data[24]? = some 0 :=
  string_truncation sampleMsg (List.replicate 30 65) [] (by decide) (by decide) (by decide)

/-- Claim C9: for every byte buffer `b` and every `len <= 24` with `len` at most the
length of `b`, after `set(b, len)` the first `len` bytes reachable through
`getCustom()` equal `b[0:len]`, `payload_type` is `P_CUSTOM` and
`payload_length == len`. -/
theorem custom_round_trip (msg : MyMessage) (b : List Nat) (len : Nat)
    (hwf : msg.WellFormed) (hlen : len ≤ 24) (hb : len ≤ b.length) :
    (getCustom (set_custom msg b len)).take len = b.take len ∧
    mGetPayloadType (set_custom msg b len) = P_CUSTOM ∧
    mGetLength (set_custom msg b len) = len := by
  have m : MAX_PAYLOAD = 24 := rfl
  refine ⟨?_, mGetPayloadType_set_custom msg b len hwf.2.1, ?_⟩
  · have hl : (b.take len).length = len := by
      rw [List.length_take]; omega
    rw [getCustom, data_set_custom, m, Nat.min_eq_left hlen, memcpy, List.take_left' hl]
  · rw [mGetLength_set_custom msg b len hwf.1]
    omega

theorem custom_round_trip_witness :
    (getCustom (set_custom sampleMsg [1, 2, 3, 4, 5] 3)).take 3 = [1, 2, 3, 4, 5].take 3 ∧
    mGetPayloadType (set_custom sampleMsg [1, 2, 3, 4, 5] 3) = P_CUSTOM ∧
    mGetLength (set_custom sampleMsg [1, 2, 3, 4, 5] 3) = 3 :=
  custom_round_trip sampleMsg [1, 2, 3, 4, 5] 3 (by decide) (by decide) (by decide)

/-! ## Hexadecimal rendering -/

theorem hexDigit_eq (n : Nat) (h : n < 16) : hexDigits[n]? = some (hexDigit n) := by
  revert n
  decide

theorem hexDigit_ne_zero (n : Nat) : hexDigit n ≠ 0 := by
  have key : ∀ r, r < 16 → hexDigits.getD r 0 ≠ 0 := by decide
  exact key (n % 16) (Nat.mod_lt _ (by decide))

theorem length_flatMap_pair (g h : Nat → Nat) (l : List Nat) :
    (l.flatMap (fun i => [g i, h i])).length = 2 * l.length := by
  induction l with
  | nil => rfl
  | cons a t ih =>
    rw [List.flatMap_cons, List.length_append, ih, List.length_cons]
    simp only [List.length_cons, List.length_nil]
    omega

theorem getElem?_flatMap_pair (g h : Nat → Nat) (l : List Nat) (k : Nat) :
    (l.flatMap (fun i => [g i, h i]))[2 * k]? = l[k]?.map g ∧
    (l.flatMap (fun i => [g i, h i]))[2 * k + 1]? = l[k]?.map h := by
  induction l generalizing k with
  | nil => simp
  | cons a t ih =>
    cases k with
    | zero => simp
    | succ j =>
      have e1 : 2 * (j + 1) = 2 * j + 1 + 1 := by omega
      rw [List.flatMap_cons, e1]
      constructor
      · simpa using (ih j).1
      · simpa using (ih j).2

/-- The bytes written by `getString(buffer)` for a payload that is not a string. -/
theorem getString_buffer_hex (msg : MyMessage) (ht : mGetPayloadType msg ≠ P_STRING) :
    getString_buffer msg =
      (List.range (mGetLength msg)).flatMap
          (fun i => [hexDigit (msg.data.getD i 0 / 16), hexDigit (msg.data.getD i 0 % 16)])
        ++ [0] := by
  have hn : ¬ miGetPayloadType msg = P_STRING := ht
  rw [getString_buffer, if_neg hn]
  rfl

/-- Claim C10: for every message whose `payload_type` is not `P_STRING`,
`getString(buffer)` writes a terminated hexadecimal string of exactly
`2 * payload_length` characters, two lower-case digits per payload byte in payload
order (high digit first); payload bytes `[0x0A, 0xFF]` render as `"0aff"`. -/
theorem hex_rendering (msg : MyMessage) (hwf : msg.WellFormed)
    (ht : mGetPayloadType msg ≠ P_STRING) :
    getString_buffer msg = cString (getString_buffer msg) ++ [0] ∧
    (cString (getString_buffer msg)).length = 2 * mGetLength msg ∧
    (∀ i b, i < mGetLength msg → msg.data[i]? = some b →
      (cString (getString_buffer msg))[2 * i]? = hexDigits[b / 16]? ∧
      (cString (getString_buffer msg))[2 * i + 1]? = hexDigits[b % 16]?) ∧
    hexDigits = "0123456789abcdef".toList.map Char.toNat ∧
    String.mk ((cString (getString_buffer
      (set_custom MyMessage.new [0x0A, 0xFF] 2))).map Char.ofNat) = "0aff" := by
  have hex := getString_buffer_hex msg ht
  generalize hh : (List.range (mGetLength msg)).flatMap
      (fun i => [hexDigit (msg.data.getD i 0 / 16), hexDigit (msg.data.getD i 0 % 16)]) = hx
    at hex
  have hnz : ∀ c ∈ hx, c ≠ 0 := by
    intro c hc
    rw [← hh, List.mem_flatMap] at hc
    obtain ⟨i, _, hi⟩ := hc
    simp only [List.mem_cons, List.mem_singleton, List.not_mem_nil, or_false] at hi
    rcases hi with rfl | rfl <;> exact hexDigit_ne_zero _
  have htext : cString (getString_buffer msg) = hx := by
    rw [hex, cString]
    exact takeWhile_before_zero hx [] hnz
  rw [htext]
  refine ⟨hex, ?_, fun i b hi hb => ?_, rfl, by decide⟩
  · rw [← hh, length_flatMap_pair, List.length_range]
  · have hb256 : b < 256 := hwf.2.2.2.2.2.2.2.2 b (List.getElem?_mem hb)
    have hp := getElem?_flatMap_pair (fun i => hexDigit (msg.data.getD i 0 / 16))
      (fun i => hexDigit (msg.data.getD i 0 % 16)) (List.range (mGetLength msg)) i
    rw [hh, List.getElem?_range hi] at hp
    rw [hp.1, hp.2, hexDigit_eq _ (by omega : b / 16 < 16),
      hexDigit_eq _ (by omega : b % 16 < 16)]
    simp [hb]

theorem hex_rendering_witness :
    (cString (getString_buffer sampleMsg)).length = 2 * mGetLength sampleMsg ∧
    (cString (getString_buffer sampleMsg))[2 * 1]? = hexDigits[0xFF / 16]? ∧
    (cString (getString_buffer sampleMsg))[2 * 1 + 1]? = hexDigits[0xFF % 16]? :=
  ⟨(hex_rendering sampleMsg (by decide) (by decide)).2.1,
   (hex_rendering sampleMsg (by decide) (by decide)).2.2.1 1 0xFF (by decide) (by decide)⟩

/-! ## Size of the text written by `getString(buffer)` -/

theorem mGetLength_set_byte (msg : MyMessage) (value : Nat)
    (h : msg.version_length < 256) :
    mGetLength (set_byte msg value) = 1 :=
  mGetLength_mSetLength (miSetPayloadType msg P_BYTE) 1 h

theorem mGetPayloadType_set_byte (msg : MyMessage) (value : Nat)
    (h : msg.command_ack_payload < 256) :
    mGetPayloadType (set_byte msg value) = P_BYTE :=
  mGetPayloadType_mSetPayloadType msg P_BYTE h

theorem data_set_byte (msg : MyMessage) (value : Nat) :
    (set_byte msg value).data = value % 256 :: msg.data.drop 1 := rfl

/-- The header bits that `set(uint8_t)` does not name keep their value. -/
theorem set_byte_header (msg : MyMessage) (value : Nat) (hwf : msg.WellFormed) :
    mGetVersion (set_byte msg value) = mGetVersion msg ∧
    mGetCommand (set_byte msg value) = mGetCommand msg ∧
    mGetAck (set_byte msg value) = mGetAck msg := by
  have hv : (set_byte msg value).version_length = msg.version_length % 8 + 1 % 32 * 8 :=
    BF_SET_3_5 _ _ hwf.1
  have hc : (set_byte msg value).command_ack_payload =
      msg.command_ack_payload % 16 + P_BYTE % 16 * 16 := BF_SET_4_4 _ _ hwf.2.1
  rw [mGetVersion_eq, mGetCommand_eq, mGetAck_eq, hv, hc, mGetVersion_eq, mGetCommand_eq,
    mGetAck_eq]
  omega

/-- Claim C12: for every `d`, `s`, `v` in 0..255 the message
`MyMessage().setDestination(d).setSensor(s).set((uint8_t)v)` has `destination == d`,
`sensor == s`, `payload_type == P_BYTE`, `payload_length == 1` and `getByte() == v`;
`setDestination` and `setSensor` change only the field they name, and `set(uint8_t)`
changes only the payload type, the payload length and the first payload byte. -/
theorem chained_builders (msg : MyMessage) (d s v : Nat) (hwf : msg.WellFormed)
    (hd : d < 256) (hs : s < 256) (hv : v < 256) :
    (set_byte (setSensor (setDestination MyMessage.new d) s) v).destination = d ∧
    (set_byte (setSensor (setDestination MyMessage.new d) s) v).sensor = s ∧
    mGetPayloadType (set_byte (setSensor (setDestination MyMessage.new d) s) v) = P_BYTE ∧
    mGetLength (set_byte (setSensor (setDestination MyMessage.new d) s) v) = 1 ∧
    getByte (set_byte (setSensor (setDestination MyMessage.new d) s) v) = v ∧
    setDestination msg d = { msg with destination := d } ∧
    setSensor msg s = { msg with sensor := s } ∧
    (mGetVersion (set_byte msg v) = mGetVersion msg ∧
     mGetCommand (set_byte msg v) = mGetCommand msg ∧
     mGetAck (set_byte msg v) = mGetAck msg ∧
     (set_byte msg v).sender = msg.sender ∧ (set_byte msg v).last = msg.last ∧
     (set_byte msg v).destination = msg.destination ∧
     (set_byte msg v).type = msg.type ∧ (set_byte msg v).sensor = msg.sensor ∧
     (set_byte msg v).data.drop 1 = msg.data.drop 1) := by
  have hd256 : d % 256 = d := Nat.mod_eq_of_lt hd
  have hs256 : s % 256 = s := Nat.mod_eq_of_lt hs
  have hv256 : v % 256 = v := Nat.mod_eq_of_lt hv
  have hnew : (setSensor (setDestination MyMessage.new d) s).version_length < 256 :=
    mSetVersion_lt _ _
  have hnewc : (setSensor (setDestination MyMessage.new d) s).command_ack_payload < 256 := by
    show MyMessage.new.command_ack_payload < 256
    decide
  have hb := set_byte_header msg v hwf
  refine ⟨hd256, hs256, mGetPayloadType_set_byte _ v hnewc, mGetLength_set_byte _ v hnew,
    ?_, ?_, ?_, hb.1, hb.2.1, hb.2.2, rfl, rfl, rfl, rfl, rfl, ?_⟩
  · rw [getByte, data_set_byte, List.getD_cons_zero, hv256]
  · rw [setDestination, hd256]
  · rw [setSensor, hs256]
  · rw [data_set_byte]
    rfl

theorem chained_builders_witness :
    (set_byte (setSensor (setDestination MyMessage.new 5) 1) 42).destination = 5 ∧
    (set_byte (setSensor (setDestination MyMessage.new 5) 1) 42).sensor = 1 ∧
    mGetPayloadType (set_byte (setSensor (setDestination MyMessage.new 5) 1) 42) = P_BYTE ∧
    mGetLength (set_byte (setSensor (setDestination MyMessage.new 5) 1) 42) = 1 ∧
    getByte (set_byte (setSensor (setDestination MyMessage.new 5) 1) 42) = 42 :=
  ⟨(chained_builders sampleMsg 5 1 42 (by decide) (by decide) (by decide) (by decide)).1,
   (chained_builders sampleMsg 5 1 42 (by decide) (by decide) (by decide) (by decide)).2.1,
   (chained_builders sampleMsg 5 1 42 (by decide) (by decide) (by decide) (by decide)).2.2.1,
   (chained_builders sampleMsg 5 1 42 (by decide) (by decide) (by decide)
     (by decide)).2.2.2.1,
   (chained_builders sampleMsg 5 1 42 (by decide) (by decide) (by decide)
     (by decide)).2.2.2.2.1⟩

/-- Claim C13: a default-constructed `MyMessage` has every header field zero except
the version, which equals `PROTOCOL_VERSION` (2), and `payload_length == 0`;
`MyMessage(sensor, type)` is the same message with the `sensor` and `type` fields set
to the arguments. -/
theorem construction (sensor type : Nat) (hs : sensor < 256) (ht : type < 256) :
    mGetVersion MyMessage.new = PROTOCOL_VERSION ∧ PROTOCOL_VERSION = 2 ∧
    mGetLength MyMessage.new = 0 ∧ mGetCommand MyMessage.new = 0 ∧
    mGetAck MyMessage.new = 0 ∧ mGetPayloadType MyMessage.new = 0 ∧
    MyMessage.new.sender = 0 ∧ MyMessage.new.last = 0 ∧ MyMessage.new.destination = 0 ∧
    MyMessage.new.type = 0 ∧ MyMessage.new.sensor = 0 ∧
    MyMessage.new2 sensor type = { MyMessage.new with sensor := sensor, type := type } := by
  refine ⟨by decide, rfl, by decide, by decide, by decide, by decide, rfl, rfl, rfl, rfl,
    rfl, ?_⟩
  rw [MyMessage.new2, Nat.mod_eq_of_lt hs, Nat.mod_eq_of_lt ht]

theorem construction_witness :
    mGetVersion MyMessage.new = PROTOCOL_VERSION ∧
    MyMessage.new2 3 16 = { MyMessage.new with sensor := 3, type := 16 } :=
  ⟨(construction 3 16 (by decide) (by decide)).1,
   (construction 3 16 (by decide) (by decide)).2.2.2.2.2.2.2.2.2.2.2⟩

/-! ## Header size and frame layout -/

/-- Claim C14, refuted as stated: the widths of the header fields declared before the
payload do not sum to `HEADER_SIZE * 8` = 64 bits. -/
theorem header_bits_not_64 :
    headerFieldBits.sum ≠ HEADER_SIZE * 8 ∧ HEADER_SIZE * 8 = 64 := by
  decide

/-- Claim C14, amended: the widths of the header fields declared before the payload
(version 3 + length 5 + command 3 + ack 1 + payload type 4 bits, and sender, last,
destination, type, sensor at 8 bits each) sum to 56 bits, the seven header bytes of
the object, which is within the `HEADER_SIZE * 8` = 64 bits of the constant. -/
theorem header_bits :
    headerFieldBits.sum = 56 ∧
    headerFieldBits.sum ≤ HEADER_SIZE * 8 ∧
    ∀ msg : MyMessage, (headerBytes msg).length = 7 ∧
      (headerBytes msg).length * 8 = headerFieldBits.sum := by
  refine ⟨by decide, by decide, fun msg => ⟨rfl, rfl⟩⟩

/-- Claim C15: in the packed layout the header fields are followed by the payload
with no padding, so payload byte `i` sits at offset `7 + i`; for every payload length
`n <= MAX_PAYLOAD` (24 = `MAX_MESSAGE_LENGTH - HEADER_SIZE`) the frame, the first
`7 + n` bytes of the object, occupies at most `MAX_MESSAGE_LENGTH` = 32 bytes; and the
whole object, header fields and `data[MAX_PAYLOAD + 1]`, is exactly 32 bytes. -/
theorem frame_layout (msg : MyMessage) (hwf : msg.WellFormed) :
    (objectBytes msg).take 7 = headerBytes msg ∧
    (∀ i, (objectBytes msg)[7 + i]? = msg.data[i]?) ∧
    (MAX_PAYLOAD = 24 ∧ MAX_PAYLOAD = MAX_MESSAGE_LENGTH - HEADER_SIZE) ∧
    (∀ n, n ≤ MAX_PAYLOAD →
      ((objectBytes msg).take (7 + n)).length = 7 + n ∧
      ((objectBytes msg).take (7 + n)).length ≤ MAX_MESSAGE_LENGTH) ∧
    (objectBytes msg).length = MAX_MESSAGE_LENGTH ∧ MAX_MESSAGE_LENGTH = 32 := by
  have hd : msg.data.length = 25 := hwf.2.2.2.2.2.2.2.1
  have hh : (headerBytes msg).length = 7 := rfl
  have hlen : (objectBytes msg).length = 32 := by
    rw [objectBytes, List.length_append, hh, hd]
  have m : MAX_PAYLOAD = 24 := rfl
  have mm : MAX_MESSAGE_LENGTH = 32 := rfl
  refine ⟨?_, fun i => ?_, ⟨m, rfl⟩, fun n hn => ?_, hlen.trans mm.symm, mm⟩
  · rw [objectBytes, List.take_left' hh]
  · rw [objectBytes, List.getElem?_append_right (by omega), hh, Nat.add_sub_cancel_left]
  · rw [List.length_take, hlen, mm]
    rw [m] at hn
    omega

theorem frame_layout_witness :
    (objectBytes sampleMsg)[7 + 1]? = sampleMsg.data[1]? ∧
    ((objectBytes sampleMsg).take (7 + 24)).length ≤ MAX_MESSAGE_LENGTH ∧
    (objectBytes sampleMsg).length = MAX_MESSAGE_LENGTH :=
  ⟨(frame_layout sampleMsg (by decide)).2.1 1,
   ((frame_layout sampleMsg (by decide)).2.2.2.1 24 (by decide)).2,
   (frame_layout sampleMsg (by decide)).2.2.2.2.1⟩

/-! ## Masking, partition and overwriting of the header bit-fields -/

/-- Claim C16: for every starting byte and every non-negative integer `x`, also beyond
the field width, each header setter stores `x` modulo `2^width` and nothing else:
`mGetVersion` after `mSetVersion(msg, x)` is `x mod 8`, `mGetLength` after `mSetLength`
is `x mod 32`, `mGetCommand` after `mSetCommand` is `x mod 8`, `mGetAck` after
`mSetAck` is `x mod 2`, `mGetPayloadType` after `mSetPayloadType` is `x mod 16`; the
resulting byte is within 0..255 and the other fields of that byte are unchanged. -/
theorem setters_mask (msg : MyMessage) (x : Nat)
    (h0 : msg.version_length < 256) (h1 : msg.command_ack_payload < 256) :
    (mGetVersion (mSetVersion msg x) = x % 8 ∧
      mGetLength (mSetVersion msg x) = mGetLength msg ∧
      (mSetVersion msg x).version_length < 256) ∧
    (mGetLength (mSetLength msg x) = x % 32 ∧
      mGetVersion (mSetLength msg x) = mGetVersion msg ∧
      (mSetLength msg x).version_length < 256) ∧
    (mGetCommand (mSetCommand msg x) = x % 8 ∧
      mGetAck (mSetCommand msg x) = mGetAck msg ∧
      mGetPayloadType (mSetCommand msg x) = mGetPayloadType msg ∧
      (mSetCommand msg x).command_ack_payload < 256) ∧
    (mGetAck (mSetAck msg x) = x % 2 ∧
      mGetCommand (mSetAck msg x) = mGetCommand msg ∧
      mGetPayloadType (mSetAck msg x) = mGetPayloadType msg ∧
      (mSetAck msg x).command_ack_payload < 256) ∧
    (mGetPayloadType (mSetPayloadType msg x) = x % 16 ∧
      mGetCommand (mSetPayloadType msg x) = mGetCommand msg ∧
      mGetAck (mSetPayloadType msg x) = mGetAck msg ∧
      (mSetPayloadType msg x).command_ack_payload < 256) := by
  simp only [mGetVersion_eq, mGetLength_eq, mGetCommand_eq, mGetAck_eq, mGetPayloadType_eq,
    mSetVersion_byte msg x h0, mSetLength_byte msg x h0, mSetCommand_byte msg x h1,
    mSetAck_byte msg x h1, mSetPayloadType_byte msg x h1]
  omega

theorem setters_mask_witness :
    mGetVersion (mSetVersion sampleMsg 300) = 300 % 8 ∧
    mGetLength (mSetLength sampleMsg 300) = 300 % 32 ∧
    mGetCommand (mSetCommand sampleMsg 300) = 300 % 8 ∧
    mGetAck (mSetAck sampleMsg 300) = 300 % 2 ∧
    mGetPayloadType (mSetPayloadType sampleMsg 300) = 300 % 16 :=
  ⟨(setters_mask sampleMsg 300 (by decide) (by decide)).1.1,
   (setters_mask sampleMsg 300 (by decide) (by decide)).2.1.1,
   (setters_mask sampleMsg 300 (by decide) (by decide)).2.2.1.1,
   (setters_mask sampleMsg 300 (by decide) (by decide)).2.2.2.1.1,
   (setters_mask sampleMsg 300 (by decide) (by decide)).2.2.2.2.1⟩

/-- Claim C17: the header bit-fields partition their byte.  For every byte `b` and
every starting byte, applying `mSetVersion` with `mGetVersion(b)` and `mSetLength` with
`mGetLength(b)`, in either order, yields exactly `b`; likewise applying `mSetCommand`,
`mSetAck` and `mSetPayloadType`, in any order, with the three values read from `b`.
The field masks `BF_MASK(0,3)`, `BF_MASK(3,5)` and `BF_MASK(0,3)`, `BF_MASK(3,1)`,
`BF_MASK(4,4)` are pairwise disjoint and each group covers `0xFF`. -/
theorem fields_partition (msg b : MyMessage)
    (h0 : msg.version_length < 256) (h1 : msg.command_ack_payload < 256)
    (hb0 : b.version_length < 256) (hb1 : b.command_ack_payload < 256) :
    ((mSetLength (mSetVersion msg (mGetVersion b)) (mGetLength b)).version_length
        = b.version_length ∧
      (mSetVersion (mSetLength msg (mGetLength b)) (mGetVersion b)).version_length
        = b.version_length) ∧
    (∀ m ∈ [mSetPayloadType (mSetAck (mSetCommand msg (mGetCommand b)) (mGetAck b))
              (mGetPayloadType b),
            mSetAck (mSetPayloadType (mSetCommand msg (mGetCommand b)) (mGetPayloadType b))
              (mGetAck b),
            mSetPayloadType (mSetCommand (mSetAck msg (mGetAck b)) (mGetCommand b))
              (mGetPayloadType b),
            mSetCommand (mSetPayloadType (mSetAck msg (mGetAck b)) (mGetPayloadType b))
              (mGetCommand b),
            mSetAck (mSetCommand (mSetPayloadType msg (mGetPayloadType b)) (mGetCommand b))
              (mGetAck b),
            mSetCommand (mSetAck (mSetPayloadType msg (mGetPayloadType b)) (mGetAck b))
              (mGetCommand b)],
      m.command_ack_payload = b.command_ack_payload) ∧
    (BF_MASK 0 3 &&& BF_MASK 3 5 = 0 ∧ BF_MASK 0 3 ||| BF_MASK 3 5 = 0xFF) ∧
    (BF_MASK 0 3 &&& BF_MASK 3 1 = 0 ∧ BF_MASK 0 3 &&& BF_MASK 4 4 = 0 ∧
      BF_MASK 3 1 &&& BF_MASK 4 4 = 0 ∧
      BF_MASK 0 3 ||| BF_MASK 3 1 ||| BF_MASK 4 4 = 0xFF) := by
  refine ⟨⟨?_, ?_⟩, fun m hm => ?_, by decide, by decide⟩
  · rw [mSetLength_byte _ _ (mSetVersion_lt _ _), mSetVersion_byte msg _ h0, mGetVersion_eq,
      mGetLength_eq]
    omega
  · rw [mSetVersion_byte _ _ (mSetLength_lt _ _), mSetLength_byte msg _ h0, mGetVersion_eq,
      mGetLength_eq]
    omega
  · simp only [List.mem_cons, List.mem_singleton, List.not_mem_nil, or_false] at hm
    rcases hm with rfl | rfl | rfl | rfl | rfl | rfl
    · rw [mSetPayloadType_byte _ _ (mSetAck_lt _ _), mSetAck_byte _ _ (mSetCommand_lt _ _),
        mSetCommand_byte msg _ h1, mGetCommand_eq, mGetAck_eq, mGetPayloadType_eq]
      omega
    · rw [mSetAck_byte _ _ (mSetPayloadType_lt _ _),
        mSetPayloadType_byte _ _ (mSetCommand_lt _ _),
        mSetCommand_byte msg _ h1, mGetCommand_eq, mGetAck_eq, mGetPayloadType_eq]
      omega
    · rw [mSetPayloadType_byte _ _ (mSetCommand_lt _ _), mSetCommand_byte _ _ (mSetAck_lt _ _),
        mSetAck_byte msg _ h1, mGetCommand_eq, mGetAck_eq, mGetPayloadType_eq]
      omega
    · rw [mSetCommand_byte _ _ (mSetPayloadType_lt _ _),
        mSetPayloadType_byte _ _ (mSetAck_lt _ _),
        mSetAck_byte msg _ h1, mGetCommand_eq, mGetAck_eq, mGetPayloadType_eq]
      omega
    · rw [mSetAck_byte _ _ (mSetCommand_lt _ _), mSetCommand_byte _ _ (mSetPayloadType_lt _ _),
        mSetPayloadType_byte msg _ h1, mGetCommand_eq, mGetAck_eq, mGetPayloadType_eq]
      omega
    · rw [mSetCommand_byte _ _ (mSetAck_lt _ _), mSetAck_byte _ _ (mSetPayloadType_lt _ _),
        mSetPayloadType_byte msg _ h1, mGetCommand_eq, mGetAck_eq, mGetPayloadType_eq]
      omega

theorem fields_partition_witness :
    (mSetLength (mSetVersion MyMessage.new (mGetVersion sampleMsg))
        (mGetLength sampleMsg)).version_length = sampleMsg.version_length ∧
    (mSetPayloadType (mSetAck (mSetCommand MyMessage.new (mGetCommand sampleMsg))
        (mGetAck sampleMsg)) (mGetPayloadType sampleMsg)).command_ack_payload
      = sampleMsg.command_ack_payload :=
  ⟨(fields_partition MyMessage.new sampleMsg (by decide) (by decide) (by decide)
      (by decide)).1.1,
   (fields_partition MyMessage.new sampleMsg (by decide) (by decide) (by decide)
      (by decide)).2.1 _ (by simp)⟩

theorem BF_SET_0_3_twice (y x z : Nat) (hy : y < 256) :
    BF_SET (BF_SET y x 0 3) z 0 3 = BF_SET y z 0 3 := by
  rw [BF_SET_0_3 _ z (BF_SET_lt _ _ _ _), BF_SET_0_3 y x hy, BF_SET_0_3 y z hy]
  omega

theorem BF_SET_3_5_twice (y x z : Nat) (hy : y < 256) :
    BF_SET (BF_SET y x 3 5) z 3 5 = BF_SET y z 3 5 := by
  rw [BF_SET_3_5 _ z (BF_SET_lt _ _ _ _), BF_SET_3_5 y x hy, BF_SET_3_5 y z hy]
  omega

theorem BF_SET_3_1_twice (y x z : Nat) (hy : y < 256) :
    BF_SET (BF_SET y x 3 1) z 3 1 = BF_SET y z 3 1 := by
  rw [BF_SET_3_1 _ z (BF_SET_lt _ _ _ _), BF_SET_3_1 y x hy, BF_SET_3_1 y z hy]
  omega

theorem BF_SET_4_4_twice (y x z : Nat) (hy : y < 256) :
    BF_SET (BF_SET y x 4 4) z 4 4 = BF_SET y z 4 4 := by
  rw [BF_SET_4_4 _ z (BF_SET_lt _ _ _ _), BF_SET_4_4 y x hy, BF_SET_4_4 y z hy]
  omega

/-- Claim C18: for every starting byte and all values `x`, `y`, applying a header
setter twice to the same field gives the same message as applying only the second
one (`mSetVersion`, `mSetLength`, `mSetCommand`, `mSetAck`, `mSetPayloadType`,
`miSetLength`, `miSetPayloadType`), so no bit of an earlier length or payload type
survives; in particular setting the same value twice equals setting it once. -/
theorem last_write_wins (msg : MyMessage) (x y : Nat)
    (h0 : msg.version_length < 256) (h1 : msg.command_ack_payload < 256) :
    mSetVersion (mSetVersion msg x) y = mSetVersion msg y ∧
    mSetLength (mSetLength msg x) y = mSetLength msg y ∧
    mSetCommand (mSetCommand msg x) y = mSetCommand msg y ∧
    mSetAck (mSetAck msg x) y = mSetAck msg y ∧
    mSetPayloadType (mSetPayloadType msg x) y = mSetPayloadType msg y ∧
    miSetLength (miSetLength msg x) y = miSetLength msg y ∧
    miSetPayloadType (miSetPayloadType msg x) y = miSetPayloadType msg y ∧
    mSetLength (mSetLength msg y) y = mSetLength msg y ∧
    miSetPayloadType (miSetPayloadType msg y) y = miSetPayloadType msg y := by
  simp only [mSetVersion, mSetLength, mSetCommand, mSetAck, mSetPayloadType, miSetLength,
    miSetPayloadType, BF_SET_0_3_twice _ _ _ h0, BF_SET_3_5_twice _ _ _ h0,
    BF_SET_0_3_twice _ _ _ h1, BF_SET_3_1_twice _ _ _ h1, BF_SET_4_4_twice _ _ _ h1,
    and_self]

theorem last_write_wins_witness :
    mSetLength (mSetLength sampleMsg 31) 4 = mSetLength sampleMsg 4 ∧
    miSetPayloadType (miSetPayloadType sampleMsg 15) 1 = miSetPayloadType sampleMsg 1 :=
  ⟨(last_write_wins sampleMsg 31 4 (by decide) (by decide)).2.1,
   (last_write_wins sampleMsg 15 1 (by decide) (by decide)).2.2.2.2.2.2.1⟩

end MySensors
